import Mathlib

/-
Verification development for the velum gateway/event-dispatch core.

Shallow embedding of the relevant parts of the source:
  * `src/velum/impl/rate_limits.py`        — `ExponentialBackoff`
  * `src/velum/events/base_events.py`      — `Event.__init_subclass__` bit registration
  * `src/velum/impl/event_manager_base.py` — `EventManagerBase` (subscribe/unsubscribe,
      dispatch, wait_for, consume_raw_event, _invoke_callback, group counts)
  * `src/velum/impl/gateway.py`            — `GatewayHandler` (start/close,
      `_poll_hello_event`, `_keep_alive` error handling)

Python floats in the backoff policy are modelled as rationals (all values the
claims touch are exactly representable); Python ints as `Int`/`Nat`; asyncio
futures and the cooperative scheduler as explicit state passing.
-/

set_option autoImplicit false

namespace Velum

/-! ## Backoff policy — `src/velum/impl/rate_limits.py`

`ExponentialBackoff.__init__(base=2.0, maximum=60.0, initial_increment=0)`
stores `base`, `maximum`, and `increment = _initial_increment = initial_increment`.
`__next__` computes `value = base ** increment`; if `value >= maximum` it
returns `maximum` without incrementing, otherwise it increments `increment`
and returns `value`. `reset()` restores `increment` to `_initial_increment`.
-/

structure ExponentialBackoff where
  base : ℚ
  maximum : ℚ
  increment : ℤ
  initial_increment : ℤ
deriving DecidableEq, Repr

/-- `ExponentialBackoff.__init__`: `increment` starts at `initial_increment`. -/
def ExponentialBackoff.init (base maximum : ℚ) (initial_increment : ℤ) :
    ExponentialBackoff :=
  ⟨base, maximum, initial_increment, initial_increment⟩

/-- `ExponentialBackoff.__next__`: returns the drawn value and the updated state. -/
def ExponentialBackoff.next (b : ExponentialBackoff) : ℚ × ExponentialBackoff :=
  let value := b.base ^ b.increment
  if b.maximum ≤ value then
    (b.maximum, b)
  else
    -- No point incrementing if we're already at the maximum value.
    (value, { b with increment := b.increment + 1 })

/-- `ExponentialBackoff.reset`. -/
def ExponentialBackoff.reset (b : ExponentialBackoff) : ExponentialBackoff :=
  { b with increment := b.initial_increment }

/-- Successive draws from the iterator: the list of the first `n` values of
`__next__`, threading the state. -/
def ExponentialBackoff.draws : ExponentialBackoff → Nat → List ℚ
  | _, 0 => []
  | b, n + 1 =>
      let p := b.next
      p.1 :: p.2.draws n

/-! ## Event-type bit registration — `src/velum/events/base_events.py`

`Event.__init_subclass__` recomputes `cls.dispatches` as the Event-subclass
part of `cls.mro()` and, unless the class is the second (attrs-rebuilt) pass
over the same event class (guarded by `"__attrs_attrs__" in cls.__dict__`),
assigns `cls.bitmask = 1 << _id_counter` and increments the module-global
`_id_counter`.  The module then sets `Event.dispatches = (Event,)` and
`Event.bitmask = 1`, and `_id_counter` starts at `1`.
-/

/-- One run of the counting part of `Event.__init_subclass__` on the global
counter: the new class gets bitmask `1 <<< counter` and the counter advances.
(The attrs second pass is guarded out in the source and so performs no
registration.) -/
def register_subclass (counter : Nat) : Nat × Nat :=
  (1 <<< counter, counter + 1)

/-- Registering `n` subclasses in sequence starting from counter value `c`:
the list of assigned bitmasks, in registration order, and the final counter. -/
def register_n : Nat → Nat → List Nat × Nat
  | c, 0 => ([], c)
  | c, n + 1 =>
      let p := register_subclass c
      let rest := register_n p.2 n
      (p.1 :: rest.1, rest.2)

/-- `Event.bitmask = 1`, set explicitly at module level. -/
def event_base_bitmask : Nat := 1

/-- The table of all bitmasks alive after `n` subclass registrations:
`Event`'s own bitmask followed by the bitmasks assigned by
`__init_subclass__`, whose counter starts at `1`. -/
def event_bitmask_table (n : Nat) : List Nat :=
  event_base_bitmask :: (register_n 1 n).1

/-! ## Event dispatch engine — `src/velum/impl/event_manager_base.py`

Event classes are modelled by their identity (`tid`) and registered `bitmask`;
an event instance carries its identity (`eid`), whether it is an
`ExceptionEvent`, and its class's `dispatches` tuple.  Callbacks and
predicates are modelled by identifiers; a predicate's behaviour on an event
is supplied by an evaluation environment `evalPred` (`Except` models a
predicate that raises).  asyncio futures are a map from future id to state.
-/

structure EventType where
  tid : Nat
  bitmask : Nat
deriving DecidableEq, Repr

structure Event where
  eid : Nat
  isExceptionEvent : Bool
  dispatches : List EventType
deriving DecidableEq, Repr

inductive FutureState
  | pending
  | resolved (eid : Nat)
  | failed (excId : Nat)
deriving DecidableEq, Repr

structure Waiter where
  predId : Option Nat
  futId : Nat
deriving DecidableEq, Repr

structure Consumer where
  callback_name : String
  events_bitmask : Nat
  listener_group_count : Int
  waiter_group_count : Int
deriving DecidableEq, Repr

/-- `Consumer.is_enabled`. -/
def Consumer.is_enabled (c : Consumer) : Bool :=
  0 < c.listener_group_count || 0 < c.waiter_group_count

/-- Association-list lookup for a `Nat`-keyed Python dict. -/
def lookupKey {α : Type} : List (Nat × α) → Nat → Option α
  | [], _ => none
  | p :: ps, k => if p.1 = k then some p.2 else lookupKey ps k

/-- Association-list write: update in place, or append at the end (Python
dicts keep insertion order). -/
def setKey {α : Type} : List (Nat × α) → Nat → α → List (Nat × α)
  | [], k, v => [(k, v)]
  | p :: ps, k, v => if p.1 = k then (k, v) :: ps else p :: setKey ps k v

/-- Association-list delete (`del d[k]`). -/
def eraseKey {α : Type} : List (Nat × α) → Nat → List (Nat × α)
  | [], _ => []
  | p :: ps, k => if p.1 = k then ps else p :: eraseKey ps k

/-- Association-list lookup for a `String`-keyed Python dict. -/
def lookupStr {α : Type} : List (String × α) → String → Option α
  | [], _ => none
  | p :: ps, k => if p.1 = k then some p.2 else lookupStr ps k

/-- Python `str.lower()` on the (ASCII) raw event names, as a map over the
characters. -/
def strLower (s : String) : String :=
  ⟨s.data.map Char.toLower⟩

/-- `EventManagerBase` state: `_listeners` (event type id → insertion-ordered
callback ids), `_waiters` (event type id → waiter pairs), `_consumers`
(lower-cased raw event name → consumer), plus the pool of futures created by
`wait_for`. -/
structure EMState where
  listeners : List (Nat × List Nat)
  waiters : List (Nat × List Waiter)
  consumers : List (String × Consumer)
  futures : List (Nat × FutureState)
deriving DecidableEq, Repr

/-- The loop body shared by `_increment_listener_group_count`: add `count`
to the listener group count of every consumer whose bitmask fully contains
the event bitmask. -/
def bump_listener_groups (cs : List (String × Consumer)) (event_bitmask : Nat)
    (count : Int) : List (String × Consumer) :=
  cs.map fun p =>
    if p.2.events_bitmask &&& event_bitmask = event_bitmask then
      (p.1, { p.2 with listener_group_count := p.2.listener_group_count + count })
    else p

/-- The loop body shared by `_increment_waiter_group_count`. -/
def bump_waiter_groups (cs : List (String × Consumer)) (event_bitmask : Nat)
    (count : Int) : List (String × Consumer) :=
  cs.map fun p =>
    if p.2.events_bitmask &&& event_bitmask = event_bitmask then
      (p.1, { p.2 with waiter_group_count := p.2.waiter_group_count + count })
    else p

/-- `EventManagerBase._increment_listener_group_count`. -/
def increment_listener_group_count (s : EMState) (event_type : EventType)
    (count : Int) : EMState :=
  { s with consumers := bump_listener_groups s.consumers event_type.bitmask count }

/-- `EventManagerBase._increment_waiter_group_count`. -/
def increment_waiter_group_count (s : EMState) (event_type : EventType)
    (count : Int) : EMState :=
  { s with consumers := bump_waiter_groups s.consumers event_type.bitmask count }

/-- `EventManagerBase.subscribe`.  Callbacks are modelled by identifiers and
are all asynchronously invocable, so the `TypeError` branch for non-coroutine
callbacks is vacuous here.  `try append / except KeyError: create and
increment the listener group counts` becomes a match on the lookup. -/
def subscribe (s : EMState) (event_type : EventType) (callback : Nat) : EMState :=
  match lookupKey s.listeners event_type.tid with
  | some l =>
      { s with listeners := setKey s.listeners event_type.tid (l ++ [callback]) }
  | none =>
      increment_listener_group_count
        { s with listeners := setKey s.listeners event_type.tid [callback] }
        event_type 1

/-- `EventManagerBase.unsubscribe`.  `none` models the `ValueError` that
`list.remove` raises when the callback is not registered. -/
def unsubscribe (s : EMState) (event_type : EventType) (callback : Nat) :
    Option EMState :=
  match lookupKey s.listeners event_type.tid with
  | none => some s
  | some [] => some s
  | some l =>
      if callback ∈ l then
        let l' := l.erase callback
        if l' = [] then
          -- Last listener for this event type was removed
          some (increment_listener_group_count
            { s with listeners := eraseKey s.listeners event_type.tid }
            event_type (-1))
        else
          some { s with listeners := setKey s.listeners event_type.tid l' }
      else none

/-! ### `_invoke_callback` -/

/-- How an awaited listener callback behaves. -/
inductive CallbackOutcome
  | ok
  | raises (excId : Nat)
deriving DecidableEq, Repr

/-- The fields of a `base_events.ExceptionEvent`. -/
structure ExcEventData where
  exception : Nat
  failed_event : Event
  failed_callback : Nat
deriving DecidableEq, Repr

/-- An `ExceptionEvent` instance built from its data: as an `Event` it always
has `isExceptionEvent = true` (it is an instance of `ExceptionEvent`). -/
def ExcEventData.toEvent (_d : ExcEventData) (eid : Nat)
    (dispatches : List EventType) : Event :=
  ⟨eid, true, dispatches⟩

/-- What `EventManagerBase._invoke_callback` does after awaiting the
callback. -/
inductive InvokeEffect
  | completed
  | loggedIgnored (excId : Nat)
  | dispatchedExceptionEvent (d : ExcEventData)
deriving DecidableEq, Repr

/-- `EventManagerBase._invoke_callback`: a raising callback on a
non-`ExceptionEvent` wraps the error in an `ExceptionEvent` and re-dispatches
it through `self.dispatch`; on an `ExceptionEvent` the error is only
logged. -/
def invoke_callback (callback : Nat) (event : Event) (outcome : CallbackOutcome) :
    InvokeEffect :=
  match outcome with
  | .ok => .completed
  | .raises exc =>
      if event.isExceptionEvent then .loggedIgnored exc
      else .dispatchedExceptionEvent ⟨exc, event, callback⟩

/-- The `ExceptionEvent`s that the effect dispatches through the engine. -/
def InvokeEffect.dispatched : InvokeEffect → List ExcEventData
  | .dispatchedExceptionEvent d => [d]
  | _ => []

/-! ### `dispatch` -/

/-- Evaluation environment for waiter predicates: predicate id and event to
`Except` (`.error` models a predicate that raises). -/
def PredEnv : Type := Nat → Event → Except Nat Bool

/-- One waiter of the `for waiter in tuple(waiter_set)` body: returns whether
the waiter is kept (`continue` before the `waiter_set.remove`) and the updated
futures. -/
def process_one_waiter (evalPred : PredEnv) (event : Event)
    (futures : List (Nat × FutureState)) (w : Waiter) :
    Bool × List (Nat × FutureState) :=
  match lookupKey futures w.futId with
  | some .pending =>
      match w.predId with
      | none => (false, setKey futures w.futId (.resolved event.eid))
      | some p =>
          match evalPred p event with
          | .ok true => (false, setKey futures w.futId (.resolved event.eid))
          | .ok false => (true, futures)
          | .error exc => (false, setKey futures w.futId (.failed exc))
  | _ => (false, futures)

/-- The whole waiter loop for one class: surviving waiters and updated
futures. -/
def process_waiters (evalPred : PredEnv) (event : Event) :
    List (Nat × FutureState) → List Waiter →
    List (Nat × FutureState) × List Waiter
  | futures, [] => (futures, [])
  | futures, w :: ws =>
      let p := process_one_waiter evalPred event futures w
      let rest := process_waiters evalPred event p.2 ws
      (rest.1, if p.1 then w :: rest.2 else rest.2)

/-- One iteration of `for cls in event.dispatches` in
`EventManagerBase.dispatch`: collect the `_invoke_callback` tasks for `cls`'s
listeners (as `(cls id, callback id)` pairs) and run the waiter loop; when the
waiter set empties, the `_waiters` entry is deleted and the waiter group
counts are decremented. -/
def dispatch_class (evalPred : PredEnv) (s : EMState) (event : Event)
    (cls : EventType) : List (Nat × Nat) × EMState :=
  let invocations := ((lookupKey s.listeners cls.tid).getD []).map
    (fun cb => (cls.tid, cb))
  match lookupKey s.waiters cls.tid with
  | none => (invocations, s)
  | some waiter_set =>
      let p := process_waiters evalPred event s.futures waiter_set
      if p.2 = [] then
        (invocations,
          increment_waiter_group_count
            { s with waiters := eraseKey s.waiters cls.tid, futures := p.1 }
            cls (-1))
      else
        (invocations,
          { s with waiters := setKey s.waiters cls.tid p.2, futures := p.1 })

/-- The loop of `EventManagerBase.dispatch` over `event.dispatches`. -/
def dispatch_go (evalPred : PredEnv) (event : Event) :
    EMState → List EventType → List (Nat × Nat) × EMState
  | s, [] => ([], s)
  | s, cls :: rest =>
      let p := dispatch_class evalPred s event cls
      let q := dispatch_go evalPred event p.2 rest
      (p.1 ++ q.1, q.2)

/-- `EventManagerBase.dispatch`: the scheduled `_invoke_callback` tasks (one
`(cls id, callback id)` pair per listener of each class in the dispatch set)
and the state after the waiter pass. -/
def dispatch (evalPred : PredEnv) (s : EMState) (event : Event) :
    List (Nat × Nat) × EMState :=
  dispatch_go evalPred event s event.dispatches

/-- Dispatching a sequence of events in order. -/
def dispatch_all (evalPred : PredEnv) : EMState → List Event → EMState
  | s, [] => s
  | s, e :: es => dispatch_all evalPred (dispatch evalPred s e).2 es

/-! ### `wait_for` -/

/-- The registration half of `EventManagerBase.wait_for`: create a pending
future, add the `(predicate, future)` pair to the waiter set for the type
(creating the set and incrementing the waiter group counts on first
registration), then await. -/
def wait_for_start (s : EMState) (event_type : EventType) (predId : Option Nat)
    (futId : Nat) : EMState :=
  let s1 := { s with futures := setKey s.futures futId .pending }
  match lookupKey s1.waiters event_type.tid with
  | some waiter_set =>
      { s1 with waiters :=
          setKey s1.waiters event_type.tid (waiter_set ++ [⟨predId, futId⟩]) }
  | none =>
      increment_waiter_group_count
        { s1 with waiters := setKey s1.waiters event_type.tid [⟨predId, futId⟩] }
        event_type 1

/-- The `except asyncio.TimeoutError` half of `EventManagerBase.wait_for`:
remove our own pair; if the waiter set is now empty, delete the `_waiters`
entry and decrement the waiter group counts; then re-raise. -/
def wait_for_on_timeout (s : EMState) (event_type : EventType)
    (predId : Option Nat) (futId : Nat) : EMState :=
  match lookupKey s.waiters event_type.tid with
  | none => s
  | some waiter_set =>
      let ws' := waiter_set.erase ⟨predId, futId⟩
      if ws' = [] then
        increment_waiter_group_count
          { s with waiters := eraseKey s.waiters event_type.tid }
          event_type (-1)
      else
        { s with waiters := setKey s.waiters event_type.tid ws' }

/-- Does a dispatched event trigger the waiter registered on `T`?  `dispatch`
reaches the waiter set of `T` exactly when `T` occurs in the event's dispatch
set, i.e. when the event is a `T`-instance. -/
def is_t_instance (T : EventType) (e : Event) : Bool :=
  e.dispatches.any (fun cls => cls.tid == T.tid)

/-- Does the optional predicate accept the event (absent predicates accept
everything)? -/
def waiter_accepts (evalPred : PredEnv) (predId : Option Nat) (e : Event) : Bool :=
  match predId with
  | none => true
  | some p =>
      match evalPred p e with
      | .ok true => true
      | _ => false

/-! ### `consume_raw_event` / `_handle_consumption` -/

/-- How the awaited consumer callback (deserialization + nested dispatch)
behaves. -/
inductive RawCallbackOutcome
  | ok
  | cancelled
  | raises (excId : Nat)
deriving DecidableEq, Repr

/-- Result of the spawned `_handle_consumption` task. -/
inductive ConsumptionResult
  | skippedDisabled
  | invoked (outcome : RawCallbackOutcome)
deriving DecidableEq, Repr

/-- `EventManagerBase._handle_consumption`: a disabled consumer (no listener
groups and no waiter groups) is skipped without invoking its callback;
otherwise the callback is awaited (cancellation is swallowed and other
errors are reported to the event loop's exception handler). -/
def handle_consumption (consumer : Consumer) (outcome : RawCallbackOutcome) :
    ConsumptionResult :=
  if consumer.is_enabled then .invoked outcome else .skippedDisabled

/-- Result of `EventManagerBase.consume_raw_event`. -/
inductive RawConsumeResult
  | unhandledWarning
  | spawned (r : ConsumptionResult)
deriving DecidableEq, Repr

/-- `EventManagerBase.consume_raw_event`: look up the consumer under the
lower-cased raw name; log an unhandled-event warning when absent, otherwise
spawn `_handle_consumption` as a task. -/
def consume_raw_event (s : EMState) (event_name : String)
    (outcome : RawCallbackOutcome) : RawConsumeResult :=
  match lookupStr s.consumers (strLower event_name) with
  | none => .unhandledWarning
  | some c => .spawned (handle_consumption c outcome)

end Velum

namespace Velum

/-! ## Gateway connection manager — `src/velum/impl/gateway.py`

The `GatewayHandler` fields the claims depend on: `_connection_event`
(an `asyncio.Event` handle or `None`; the handle itself is truthy whether or
not it is set), `_keep_alive_task`, and `_is_closing`.  asyncio tasks are
modelled by identifiers; awaiting is explicit state passing. -/

structure GHState where
  connection_event : Option Bool
  keep_alive_task : Option Nat
  is_closing : Bool
deriving DecidableEq, Repr

/-- `GatewayHandler.__init__`: `_connection_event = None`,
`_keep_alive_task = None`, `_is_closing = False`. -/
def GHState.init : GHState := ⟨none, none, false⟩

/-- Outcome of `GatewayHandler.start`. -/
inductive StartResult
  | ok
  | errorAlreadyStarted
  | errorClosedBeforeStart
deriving DecidableEq, Repr

/-- `GatewayHandler.start`: raises `RuntimeError` when `_connection_event`
is truthy (any previously created handle, set or not); otherwise creates the
handle, spawns the keep-alive task and races it against the connection
signal.  `connected` says which side of the `first_completed` race won:
on success `_keep_alive_task` is recorded; on failure the handle stays
behind, unset, and the keep-alive task's error propagates. -/
def start_step (s : GHState) (tid : Nat) (connected : Bool) :
    StartResult × GHState :=
  if s.connection_event.isSome then
    (.errorAlreadyStarted, s)
  else if connected then
    (.ok, { s with connection_event := some true, keep_alive_task := some tid })
  else
    (.errorClosedBeforeStart, { s with connection_event := some false })

/-- Outcome of entering `GatewayHandler.close`. -/
inductive CloseBeginResult
  | errorInactive
  | awaitedInFlight
  | closing
deriving DecidableEq, Repr

/-- The entry of `GatewayHandler.close` up to its first await: raises
`RuntimeError` when `_keep_alive_task` is `None`; a repeated call while
`_is_closing` merely awaits the shielded keep-alive task and returns;
otherwise it marks `_is_closing` and proceeds to cancel the task. -/
def close_begin (s : GHState) : CloseBeginResult × GHState :=
  if s.keep_alive_task = none then (.errorInactive, s)
  else if s.is_closing then (.awaitedInFlight, s)
  else (.closing, { s with is_closing := true })

/-- The tail of `GatewayHandler.close` after the cancelled keep-alive task
has been awaited: `_keep_alive_task = None`, `_is_closing = False`.  Note
`_connection_event` is left untouched. -/
def close_finish (s : GHState) : GHState :=
  { s with keep_alive_task := none, is_closing := false }

/-- A full, uninterleaved `close()` call. -/
def close_full (s : GHState) : CloseBeginResult × GHState :=
  let p := close_begin s
  match p.1 with
  | .closing => (.closing, close_finish p.2)
  | r => (r, p.2)

/-- The events a `close()` call causes to be dispatched: the `.closing` path
cancels the keep-alive loop, whose `finally` block dispatches exactly one
`DisconnectEvent`; the other paths cancel nothing and dispatch nothing. -/
def close_emitted_events : CloseBeginResult → List String
  | .closing => ["DisconnectEvent"]
  | _ => []

/-- Operations touching the `GatewayHandler` connection state: `start()`,
`close()`, and the keep-alive loop's own clear (top of the loop body) and
set (end of `_connect`) of the connection event handle. -/
inductive GHOp
  | opStart (tid : Nat) (connected : Bool)
  | opCloseFull
  | opConnClear
  | opConnSet
deriving DecidableEq, Repr

/-- Observable outcome of one operation. -/
inductive GHResult
  | started (r : StartResult)
  | closed (r : CloseBeginResult)
  | internal
deriving DecidableEq, Repr

/-- One operation on the handler state. -/
def gh_step (s : GHState) : GHOp → GHResult × GHState
  | .opStart tid connected =>
      let p := start_step s tid connected
      (.started p.1, p.2)
  | .opCloseFull =>
      let p := close_full s
      (.closed p.1, p.2)
  | .opConnClear =>
      (.internal, { s with connection_event := s.connection_event.map (fun _ => false) })
  | .opConnSet =>
      (.internal, { s with connection_event := s.connection_event.map (fun _ => true) })

/-- Running a sequence of operations. -/
def gh_run : GHState → List GHOp → GHState
  | s, [] => s
  | s, op :: ops => gh_run (gh_step s op).2 ops

/-! ### `_poll_hello_event` and `_keep_alive` error handling -/

/-- The first frame read off the freshly opened transport: its opcode and the
`heartbeat_interval` (milliseconds) of the payload. -/
structure GatewayFrame where
  op : String
  heartbeat_interval : ℚ
deriving DecidableEq, Repr

/-- The exception classes that can escape one `_keep_alive` connection
attempt. -/
inductive GatewayException
  | runtimeError (msg : String)
  | gatewayConnectionError (reason : String)
  | cancelledError
deriving DecidableEq, Repr

/-- Outcome of `GatewayHandler._poll_hello_event` on the first frame. -/
inductive HelloResult
  | ok (heartbeat_interval_s : ℚ)
  | failed (closeCode : Nat) (closeMessage : String) (raised : GatewayException)
deriving DecidableEq, Repr

/-- `GatewayHandler._poll_hello_event`: a first frame with any opcode other
than `HELLO` closes the socket with code 1002 and message
`"Expected HELLO op."`, then raises; a `HELLO` frame yields the heartbeat
interval converted to seconds. -/
def poll_hello_event (frame : GatewayFrame) : HelloResult :=
  if frame.op ≠ "HELLO" then
    .failed 1002 "Expected HELLO op."
      (.runtimeError ("Expected opcode HELLO, received " ++ frame.op ++ " instead."))
  else
    .ok (frame.heartbeat_interval / 1000)

/-- What the `_keep_alive` loop does with an exception escaping a connection
attempt. -/
inductive KeepAliveAction
  | continueLoop
  | stopClosing
deriving DecidableEq, Repr

/-- The `except` clauses of `_keep_alive`: `GatewayConnectionError` is
logged and the loop continues; `CancelledError` marks closing and returns;
any other exception (including the `RuntimeError` from
`_poll_hello_event`) is logged and the loop continues. -/
def keep_alive_on_exception : GatewayException → KeepAliveAction
  | .gatewayConnectionError _ => .continueLoop
  | .cancelledError => .stopClosing
  | .runtimeError _ => .continueLoop

/-- The reconnect-throttling check at the top of the `_keep_alive` loop
body: a backoff sleep is taken when less than the 15-second window has
elapsed since the previous attempt started. -/
def keep_alive_backs_off (elapsed : ℚ) : Bool :=
  elapsed < 15

end Velum

namespace Velum

/-! ## Theorems -/

theorem register_n_fst (c n : Nat) :
    (register_n c n).1 = (List.range n).map (fun i => 1 <<< (c + i)) := by
  induction n generalizing c with
  | zero => simp [register_n]
  | succ n ih =>
      rw [List.range_succ_eq_map]
      simp only [register_n, register_subclass, List.map_cons, List.map_map]
      rw [ih]
      refine congrArg₂ _ (by simp) (List.map_congr_left ?_)
      intro i _
      have h : c + 1 + i = c + (i + 1) := by omega
      simp [Function.comp, h]

theorem event_bitmask_table_eq (n : Nat) :
    event_bitmask_table n = (List.range (n + 1)).map (fun k => 2 ^ k) := by
  rw [event_bitmask_table, register_n_fst, List.range_succ_eq_map]
  simp only [List.map_cons, List.map_map, pow_zero, event_base_bitmask]
  refine congrArg₂ _ rfl (List.map_congr_left ?_)
  intro i _
  simp [Function.comp, Nat.shiftLeft_eq, Nat.add_comm]

/-- C4: every Event subclass is assigned a unique power-of-two bit identifier
at class-registration time via a monotonically incrementing process-wide
counter, and the identifier never changes: after any number `n` of
registrations the table of live bitmasks (`Event`'s own plus the assigned
ones) is pairwise distinct, consists of powers of two, and is a stable prefix
of the table after `m` further registrations. -/
theorem event_bitmasks_unique_and_stable (n m : Nat) :
    (event_bitmask_table n).Nodup ∧
    (∀ b ∈ event_bitmask_table n, ∃ k, b = 2 ^ k) ∧
    List.IsPrefix (event_bitmask_table n) (event_bitmask_table (n + m)) := by
  refine ⟨?_, ?_, ?_⟩
  · rw [event_bitmask_table_eq]
    exact List.Nodup.map (Nat.pow_right_injective (by norm_num)) (List.nodup_range _)
  · intro b hb
    rw [event_bitmask_table_eq] at hb
    obtain ⟨k, -, rfl⟩ := List.mem_map.mp hb
    exact ⟨k, rfl⟩
  · rw [event_bitmask_table_eq, event_bitmask_table_eq]
    refine ⟨((List.range m).map (fun x => (n + 1) + x)).map (fun k => 2 ^ k), ?_⟩
    rw [← List.map_append, ← List.range_add]
    have hr : (n + 1) + m = n + m + 1 := by omega
    rw [hr]

/-- C5: each draw from `ExponentialBackoff` returns `min(base ^ attempt, max)`,
the attempt counter advances exactly when the draw was below `max`, `reset`
restores the counter to its initial value, and with `base = 2, max = 60` the
first seven draws are `1, 2, 4, 8, 16, 32, 60`. -/
theorem backoff_draw_spec (b : ExponentialBackoff) :
    b.next.1 = min (b.base ^ b.increment) b.maximum ∧
    (b.next.2.increment = b.increment + 1 ↔ b.next.1 < b.maximum) ∧
    b.next.2.base = b.base ∧ b.next.2.maximum = b.maximum ∧
    b.next.2.initial_increment = b.initial_increment ∧
    b.reset.increment = b.initial_increment ∧
    (ExponentialBackoff.init 2 60 0).draws 7 = [1, 2, 4, 8, 16, 32, 60] := by
  rcases le_or_lt b.maximum (b.base ^ b.increment) with h | h
  · refine ⟨?_, ?_, ?_, ?_, ?_, rfl,
      by norm_num [ExponentialBackoff.draws, ExponentialBackoff.next,
        ExponentialBackoff.init]⟩ <;>
      simp only [ExponentialBackoff.next, if_pos h]
    · exact (min_eq_right h).symm
    · simp only [lt_self_iff_false, iff_false]
      omega
  · refine ⟨?_, ?_, ?_, ?_, ?_, rfl,
      by norm_num [ExponentialBackoff.draws, ExponentialBackoff.next,
        ExponentialBackoff.init]⟩ <;>
      simp only [ExponentialBackoff.next, if_neg (not_le.mpr h)]
    · exact (min_eq_left h.le).symm
    · simpa using h

/-- C2: a listener that raises while handling a non-`ExceptionEvent` causes
exactly one `ExceptionEvent` dispatch, carrying that exception, the failed
event and the failed callback; a listener that raises while handling an
`ExceptionEvent` (any event built from `ExcEventData` is one) dispatches
nothing and is only logged, so wrapping never recurses; a callback that
returns normally dispatches nothing. -/
theorem invoke_callback_exception_wrapping (cb cb' : Nat) (e : Event)
    (exc exc' : Nat) (d : ExcEventData) (eid : Nat) (ds : List EventType) :
    (invoke_callback cb e (.raises exc)).dispatched =
      (if e.isExceptionEvent then [] else [⟨exc, e, cb⟩]) ∧
    invoke_callback cb' (d.toEvent eid ds) (.raises exc') = .loggedIgnored exc' ∧
    (invoke_callback cb' (d.toEvent eid ds) (.raises exc')).dispatched = [] ∧
    invoke_callback cb e .ok = .completed := by
  refine ⟨?_, ?_, ?_, rfl⟩
  · by_cases h : e.isExceptionEvent <;>
      simp [invoke_callback, InvokeEffect.dispatched, h]
  · simp [invoke_callback, ExcEventData.toEvent]
  · simp [invoke_callback, ExcEventData.toEvent, InvokeEffect.dispatched]

/-- C6: when the first frame after opening the transport carries any opcode
other than `HELLO`, `_poll_hello_event` closes the socket with code 1002 and
fails the attempt with a protocol-violation error (a `RuntimeError` in the
source), and the supervised `_keep_alive` loop treats that error as
retryable — it continues looping, backing off while within the 15-second
window. -/
theorem hello_protocol_violation (frame : GatewayFrame) (elapsed : ℚ)
    (hop : frame.op ≠ "HELLO") (helapsed : elapsed < 15) :
    poll_hello_event frame =
      .failed 1002 "Expected HELLO op."
        (.runtimeError
          ("Expected opcode HELLO, received " ++ frame.op ++ " instead.")) ∧
    keep_alive_on_exception
        (.runtimeError
          ("Expected opcode HELLO, received " ++ frame.op ++ " instead."))
      = .continueLoop ∧
    keep_alive_backs_off elapsed = true := by
  refine ⟨?_, rfl, ?_⟩
  · simp [poll_hello_event, hop]
  · simp [keep_alive_backs_off]
    exact helapsed

/-- Witness for C6 at a concrete non-`HELLO` first frame. -/
theorem hello_protocol_violation_witness :
    poll_hello_event ⟨"PING", 0⟩ =
      .failed 1002 "Expected HELLO op."
        (.runtimeError
          ("Expected opcode HELLO, received " ++ "PING" ++ " instead.")) ∧
    keep_alive_on_exception
        (.runtimeError
          ("Expected opcode HELLO, received " ++ "PING" ++ " instead."))
      = .continueLoop ∧
    keep_alive_backs_off 1 = true :=
  hello_protocol_violation ⟨"PING", 0⟩ 1 (by decide) (by norm_num)

/-- C7 counterexample: on a started handler (keep-alive task 0 running,
not closing), a first `close()` completes and resets `_keep_alive_task` to
`None`, so a second sequential `close()` takes the inactive branch and
raises `RuntimeError` — contradicting the claim that both of two successive
`close()` calls resolve without error. -/
theorem close_twice_sequential_second_errors :
    (close_full (close_full ⟨some true, some 0, false⟩).2).1
      = CloseBeginResult.errorInactive := by
  decide

/-- C7 amended: on a started handler, a second `close()` that begins while
the first is still in flight resolves without error, changes no state,
cancels nothing and emits no disconnect event (it merely awaits the
in-flight shutdown); `close()` on a never-started handler raises
`RuntimeError`; and once a `close()` has fully completed, a further
`close()` raises `RuntimeError` again (the handler is inactive). -/
theorem close_concurrent_idempotent (s : GHState) (t : Nat)
    (htask : s.keep_alive_task = some t) (hclosing : s.is_closing = false) :
    (close_begin s).1 = .closing ∧
    (close_begin (close_begin s).2).1 = .awaitedInFlight ∧
    (close_begin (close_begin s).2).2 = (close_begin s).2 ∧
    close_emitted_events (close_begin (close_begin s).2).1 = [] ∧
    (∀ s' : GHState, s'.keep_alive_task = none →
      close_begin s' = (.errorInactive, s')) ∧
    (close_full (close_full s).2).1 = .errorInactive := by
  obtain ⟨ce, kat, ic⟩ := s
  subst htask hclosing
  refine ⟨rfl, ?_, ?_, ?_, ?_, ?_⟩ <;>
    simp [close_begin, close_full, close_finish, close_emitted_events]
  intro s' h
  simp [close_begin, h]

/-- Witness for C7's amended statement on a concrete started handler. -/
theorem close_concurrent_idempotent_witness :
    (close_begin ⟨some true, some 0, false⟩).1 = .closing ∧
    (close_begin (close_begin ⟨some true, some 0, false⟩).2).1
      = .awaitedInFlight ∧
    (close_begin (close_begin ⟨some true, some 0, false⟩).2).2
      = (close_begin ⟨some true, some 0, false⟩).2 ∧
    close_emitted_events (close_begin (close_begin ⟨some true, some 0, false⟩).2).1
      = [] ∧
    (∀ s' : GHState, s'.keep_alive_task = none →
      close_begin s' = (.errorInactive, s')) ∧
    (close_full (close_full ⟨some true, some 0, false⟩).2).1
      = .errorInactive :=
  close_concurrent_idempotent ⟨some true, some 0, false⟩ 0 rfl rfl

theorem start_step_conn_isSome (s : GHState) (tid : Nat) (c : Bool) :
    ((start_step s tid c).2).connection_event.isSome = true := by
  by_cases h : s.connection_event.isSome
  · simp [start_step, h]
  · by_cases hc : c <;> simp [start_step, h, hc]

theorem gh_step_conn_isSome (s : GHState) (op : GHOp)
    (h : s.connection_event.isSome = true) :
    ((gh_step s op).2).connection_event.isSome = true := by
  cases op with
  | opStart tid c => exact start_step_conn_isSome s tid c
  | opCloseFull =>
      simp only [gh_step, close_full, close_begin]
      by_cases h1 : s.keep_alive_task = none
      · simpa [h1] using h
      · by_cases h2 : s.is_closing <;> simpa [h1, h2, close_finish] using h
  | opConnClear =>
      cases hce : s.connection_event with
      | none => simp [hce] at h
      | some b => simp [gh_step, hce]
  | opConnSet =>
      cases hce : s.connection_event with
      | none => simp [hce] at h
      | some b => simp [gh_step, hce]

theorem gh_run_conn_isSome (ops : List GHOp) (s : GHState)
    (h : s.connection_event.isSome = true) :
    (gh_run s ops).connection_event.isSome = true := by
  induction ops generalizing s with
  | nil => exact h
  | cons op rest ih => exact ih _ (gh_step_conn_isSome s op h)

theorem start_step_already (s : GHState) (tid : Nat) (c : Bool)
    (h : s.connection_event.isSome = true) :
    (start_step s tid c).1 = .errorAlreadyStarted := by
  simp [start_step, h]

/-- C10: a fresh `GatewayHandler` admits a successful `start()`, but after
any first `start()` call — whatever operations (including successful
`close()` calls, which never clear `_connection_event`) happen in between —
every subsequent `start()` raises `RuntimeError`: the handler supports at
most one successful `start()` in its lifetime. -/
theorem gateway_single_start (ops₁ ops₂ : List GHOp) (tid₁ tid₂ : Nat)
    (c₁ c₂ : Bool) :
    (start_step GHState.init tid₁ true).1 = .ok ∧
    (start_step
        (gh_run (start_step (gh_run GHState.init ops₁) tid₁ c₁).2 ops₂)
        tid₂ c₂).1
      = .errorAlreadyStarted ∧
    (∀ s : GHState, (close_full s).2.connection_event = s.connection_event) := by
  refine ⟨rfl, ?_, ?_⟩
  · exact start_step_already _ tid₂ c₂
      (gh_run_conn_isSome ops₂ _
        (start_step_conn_isSome (gh_run GHState.init ops₁) tid₁ c₁))
  · intro s
    simp only [close_full, close_begin]
    by_cases h1 : s.keep_alive_task = none
    · simp [h1]
    · by_cases h2 : s.is_closing <;> simp [h1, h2, close_finish]

/-- C8: a raw event name with no registered consumer only logs an
unhandled-event warning (the function is total: no error is raised); a raw
name whose consumer is disabled — listener and waiter group counts both
zero — never has its deserialization callback invoked: the spawned
`_handle_consumption` task skips it. -/
theorem consume_raw_event_unknown_or_disabled (s : EMState) (name : String)
    (outcome : RawCallbackOutcome) :
    (lookupStr s.consumers (strLower name) = none →
      consume_raw_event s name outcome = .unhandledWarning) ∧
    (∀ c, lookupStr s.consumers (strLower name) = some c →
      c.listener_group_count = 0 → c.waiter_group_count = 0 →
      consume_raw_event s name outcome = .spawned .skippedDisabled) := by
  constructor
  · intro h
    simp [consume_raw_event, h]
  · intro c hc hl hw
    have henabled : c.is_enabled = false := by
      simp [Consumer.is_enabled, hl, hw]
    simp [consume_raw_event, hc, handle_consumption, henabled]

/-- Witness for C8: a state whose only consumer is `message_create`
(bitmask arbitrary, both group counts zero): the unknown raw name `"PING"`
yields the warning, and the known-but-disabled raw name `"MESSAGE_CREATE"`
is skipped without invoking the callback. -/
theorem consume_raw_event_unknown_or_disabled_witness :
    consume_raw_event
        ⟨[], [], [("message_create", ⟨"on_message_create", 6, 0, 0⟩)], []⟩
        "PING" .ok
      = .unhandledWarning ∧
    consume_raw_event
        ⟨[], [], [("message_create", ⟨"on_message_create", 6, 0, 0⟩)], []⟩
        "MESSAGE_CREATE" .ok
      = .spawned .skippedDisabled :=
  ⟨(consume_raw_event_unknown_or_disabled _ "PING" .ok).1 (by decide),
   (consume_raw_event_unknown_or_disabled _ "MESSAGE_CREATE" .ok).2
     ⟨"on_message_create", 6, 0, 0⟩ (by decide) rfl rfl⟩

theorem lookupKey_setKey_self {α : Type} (l : List (Nat × α)) (k : Nat) (v : α) :
    lookupKey (setKey l k v) k = some v := by
  induction l with
  | nil => simp [setKey, lookupKey]
  | cons p ps ih =>
      by_cases h : p.1 = k <;> simp [setKey, lookupKey, h, ih]

theorem eraseKey_setKey_of_lookup_none {α : Type} (l : List (Nat × α))
    (k : Nat) (v : α) (h : lookupKey l k = none) :
    eraseKey (setKey l k v) k = l := by
  induction l with
  | nil => simp [setKey, eraseKey]
  | cons p ps ih =>
      by_cases hp : p.1 = k
      · rw [lookupKey, if_pos hp] at h
        exact absurd h (by simp)
      · rw [lookupKey, if_neg hp] at h
        simp [setKey, eraseKey, hp, ih h]

theorem listener_count_inc_dec (cs : List (String × Consumer)) (m : Nat) :
    bump_listener_groups (bump_listener_groups cs m 1) m (-1) = cs := by
  induction cs with
  | nil => rfl
  | cons p ps ih =>
      obtain ⟨nm, ⟨cbn, bm, lgc, wgc⟩⟩ := p
      simp only [bump_listener_groups, List.map_cons] at ih ⊢
      rw [ih]
      by_cases h : bm &&& m = m <;> simp [h]

theorem waiter_count_inc_dec (cs : List (String × Consumer)) (m : Nat) :
    bump_waiter_groups (bump_waiter_groups cs m 1) m (-1) = cs := by
  induction cs with
  | nil => rfl
  | cons p ps ih =>
      obtain ⟨nm, ⟨cbn, bm, lgc, wgc⟩⟩ := p
      simp only [bump_waiter_groups, List.map_cons] at ih ⊢
      rw [ih]
      by_cases h : bm &&& m = m <;> simp [h]

/-- C9: on an event type `T` with no currently registered listeners,
`subscribe(T, cb)` followed by `unsubscribe(T, cb)` restores the engine to
exactly its prior state — in particular the listener map again has no entry
for `T` and every consumer's listener group count (including every consumer
whose bitmask fully contains `T`'s bit) equals its value before the
subscribe. -/
theorem subscribe_unsubscribe_roundtrip (s : EMState) (T : EventType) (cb : Nat)
    (h : lookupKey s.listeners T.tid = none) :
    unsubscribe (subscribe s T cb) T cb = some s := by
  obtain ⟨ls, ws, cs, fs⟩ := s
  simp only at h
  have hsub : subscribe ⟨ls, ws, cs, fs⟩ T cb =
      ⟨setKey ls T.tid [cb], ws, bump_listener_groups cs T.bitmask 1, fs⟩ := by
    simp [subscribe, h, increment_listener_group_count]
  rw [hsub]
  simp only [unsubscribe, lookupKey_setKey_self, List.mem_singleton,
    List.erase_cons_head, increment_listener_group_count, if_true,
    eraseKey_setKey_of_lookup_none ls T.tid [cb] h, Option.some.injEq,
    EMState.mk.injEq]
  exact ⟨trivial, trivial, listener_count_inc_dec cs T.bitmask, trivial⟩

theorem dispatch_class_listeners (evalPred : PredEnv) (s : EMState)
    (event : Event) (cls : EventType) :
    ((dispatch_class evalPred s event cls).2).listeners = s.listeners := by
  rw [dispatch_class]
  cases lookupKey s.waiters cls.tid with
  | none => rfl
  | some ws =>
      simp only
      split <;> simp [increment_waiter_group_count]

theorem count_map_pair (t A cb : Nat) (l : List Nat) :
    List.count (A, cb) (l.map (fun c => (t, c))) =
      if t = A then List.count cb l else 0 := by
  induction l with
  | nil => simp
  | cons x xs ih =>
      simp only [List.map_cons, List.count_cons, ih]
      by_cases ht : t = A
      · subst ht
        by_cases hx : x = cb <;> simp [hx, Prod.ext_iff]
      · simp [ht, Prod.ext_iff]

theorem dispatch_go_count (evalPred : PredEnv) (event : Event)
    (clss : List EventType) (s : EMState) (A cb : Nat)
    (hnodup : (clss.map EventType.tid).Nodup) :
    List.count (A, cb) (dispatch_go evalPred event s clss).1 =
      if A ∈ clss.map EventType.tid then
        List.count cb ((lookupKey s.listeners A).getD [])
      else 0 := by
  induction clss generalizing s with
  | nil => simp [dispatch_go]
  | cons cls rest ih =>
      simp only [List.map_cons, List.nodup_cons] at hnodup
      have hl := dispatch_class_listeners evalPred s event cls
      simp only [dispatch_go, List.count_append]
      rw [show (dispatch_class evalPred s event cls).1 =
            ((lookupKey s.listeners cls.tid).getD []).map (fun c => (cls.tid, c)) by
          rw [dispatch_class]
          cases lookupKey s.waiters cls.tid with
          | none => rfl
          | some ws =>
              simp only
              split <;> rfl]
      rw [count_map_pair, ih _ hnodup.2, hl]
      by_cases hA : cls.tid = A
      · subst hA
        simp [hnodup.1]
      · simp [hA, Ne.symm hA]

/-- C1: for an event whose dispatch set lists pairwise-distinct types (as a
class's method-resolution order does), `dispatch` schedules, for every type
`A` and callback `cb`, exactly as many `_invoke_callback` invocations of
`cb` attributed to `A` as there are registrations of `cb` on `A` when `A` is
in the dispatch set — in particular each callback subscribed once on such a
type runs exactly once — and zero invocations when `A` is outside the
dispatch set. -/
theorem dispatch_invocation_counts (evalPred : PredEnv) (s : EMState)
    (event : Event) (A cb : Nat)
    (hnodup : (event.dispatches.map EventType.tid).Nodup) :
    List.count (A, cb) (dispatch evalPred s event).1 =
      if A ∈ event.dispatches.map EventType.tid then
        List.count cb ((lookupKey s.listeners A).getD [])
      else 0 :=
  dispatch_go_count evalPred event event.dispatches s A cb hnodup

/-- Witness for C1: a concrete engine with listeners on type ids 1, 2 and 3
and an event dispatching to `[2, 1]`: the callback 10, registered on both
type 2 and type 1, is counted once for each registration; type 3 is outside
the dispatch set. -/
theorem dispatch_invocation_counts_witness :
    List.count (1, 10)
        (dispatch (fun _ _ => Except.ok true)
          ⟨[(2, [10]), (1, [10, 11]), (3, [12])], [], [], []⟩
          ⟨0, false, [⟨2, 4⟩, ⟨1, 1⟩]⟩).1 =
      (if 1 ∈ (Event.mk 0 false [⟨2, 4⟩, ⟨1, 1⟩]).dispatches.map EventType.tid
        then
          List.count 10
            ((lookupKey [(2, [10]), (1, [10, 11]), (3, [12])] 1).getD [])
        else 0) :=
  dispatch_invocation_counts (fun _ _ => Except.ok true)
    ⟨[(2, [10]), (1, [10, 11]), (3, [12])], [], [], []⟩
    ⟨0, false, [⟨2, 4⟩, ⟨1, 1⟩]⟩ 1 10 (by decide)

theorem setKey_setKey {α : Type} (l : List (Nat × α)) (k : Nat) (v v' : α) :
    setKey (setKey l k v) k v' = setKey l k v' := by
  induction l with
  | nil => simp [setKey]
  | cons p ps ih =>
      by_cases h : p.1 = k <;> simp [setKey, h, ih]

theorem dispatch_class_no_waiters (evalPred : PredEnv) (s : EMState)
    (event : Event) (cls : EventType) (h : s.waiters = []) :
    (dispatch_class evalPred s event cls).2 = s := by
  simp [dispatch_class, h, lookupKey]

theorem dispatch_go_no_waiters (evalPred : PredEnv) (event : Event)
    (clss : List EventType) (s : EMState) (h : s.waiters = []) :
    (dispatch_go evalPred event s clss).2 = s := by
  induction clss with
  | nil => rfl
  | cons cls rest ih =>
      simp only [dispatch_go]
      rw [dispatch_class_no_waiters evalPred s event cls h]
      exact ih

theorem dispatch_all_no_waiters (evalPred : PredEnv) (es : List Event)
    (s : EMState) (h : s.waiters = []) :
    dispatch_all evalPred s es = s := by
  induction es with
  | nil => rfl
  | cons e rest ih =>
      simp only [dispatch_all, dispatch]
      rw [dispatch_go_no_waiters evalPred e e.dispatches s h]
      exact ih

theorem dispatch_go_waiting (evalPred : PredEnv) (e : Event) (T : EventType)
    (predId : Option Nat) (futId : Nat) (ds : List EventType)
    (L : List (Nat × List Nat)) (W : List (String × Consumer))
    (F : List (Nat × FutureState))
    (hF : lookupKey F futId = some .pending)
    (htype : ∀ cls ∈ ds, cls.tid = T.tid → cls = T)
    (hpred : ∀ p, predId = some p →
      (evalPred p e = .ok true ∨ evalPred p e = .ok false)) :
    (dispatch_go evalPred e ⟨L, [(T.tid, [⟨predId, futId⟩])], W, F⟩ ds).2 =
      (if (ds.any fun cls => cls.tid == T.tid)
          && waiter_accepts evalPred predId e then
        ⟨L, [], bump_waiter_groups W T.bitmask (-1),
          setKey F futId (.resolved e.eid)⟩
      else ⟨L, [(T.tid, [⟨predId, futId⟩])], W, F⟩) := by
  induction ds with
  | nil => simp [dispatch_go]
  | cons cls rest ih =>
      have htype_rest : ∀ c ∈ rest, c.tid = T.tid → c = T :=
        fun c hc => htype c (List.mem_cons_of_mem _ hc)
      by_cases hcls : cls.tid = T.tid
      · have hclsT : cls = T := htype cls (List.mem_cons_self cls rest) hcls
        subst hclsT
        rcases hpid : predId with _ | p
        · have hclass :
              (dispatch_class evalPred ⟨L, [(cls.tid, [⟨none, futId⟩])], W, F⟩
                e cls).2 =
                ⟨L, [], bump_waiter_groups W cls.bitmask (-1),
                  setKey F futId (.resolved e.eid)⟩ := by
            simp [dispatch_class, lookupKey, process_waiters,
              process_one_waiter, hF, eraseKey, increment_waiter_group_count]
          subst hpid
          simp only [dispatch_go]
          rw [hclass, dispatch_go_no_waiters _ _ _ _ rfl]
          simp [waiter_accepts]
        · subst hpid
          rcases hpred p rfl with hp | hp
          · have hclass :
                (dispatch_class evalPred
                  ⟨L, [(cls.tid, [⟨some p, futId⟩])], W, F⟩ e cls).2 =
                  ⟨L, [], bump_waiter_groups W cls.bitmask (-1),
                    setKey F futId (.resolved e.eid)⟩ := by
              simp [dispatch_class, lookupKey, process_waiters,
                process_one_waiter, hF, hp, eraseKey,
                increment_waiter_group_count]
            simp only [dispatch_go]
            rw [hclass, dispatch_go_no_waiters _ _ _ _ rfl]
            simp [waiter_accepts, hp]
          · have hclass :
                (dispatch_class evalPred
                  ⟨L, [(cls.tid, [⟨some p, futId⟩])], W, F⟩ e cls).2 =
                  ⟨L, [(cls.tid, [⟨some p, futId⟩])], W, F⟩ := by
              simp [dispatch_class, lookupKey, process_waiters,
                process_one_waiter, hF, hp, setKey]
            simp only [dispatch_go]
            rw [hclass, ih htype_rest]
            simp [waiter_accepts, hp]
      · have hlook :
            lookupKey [(T.tid, [(⟨predId, futId⟩ : Waiter)])] cls.tid = none := by
          simp [lookupKey]
          omega
        have hclass :
            (dispatch_class evalPred ⟨L, [(T.tid, [⟨predId, futId⟩])], W, F⟩
              e cls).2 = ⟨L, [(T.tid, [⟨predId, futId⟩])], W, F⟩ := by
          simp [dispatch_class, hlook]
        simp only [dispatch_go]
        rw [hclass, ih htype_rest]
        simp [List.any_cons, hcls]

theorem dispatch_all_waiting (evalPred : PredEnv) (T : EventType)
    (predId : Option Nat) (futId : Nat) (es : List Event)
    (L : List (Nat × List Nat)) (W : List (String × Consumer))
    (F : List (Nat × FutureState))
    (hF : lookupKey F futId = some .pending)
    (htype : ∀ e ∈ es, ∀ cls ∈ e.dispatches, cls.tid = T.tid → cls = T)
    (hpred : ∀ e ∈ es, ∀ p, predId = some p →
      (evalPred p e = .ok true ∨ evalPred p e = .ok false)) :
    dispatch_all evalPred ⟨L, [(T.tid, [⟨predId, futId⟩])], W, F⟩ es =
      (match es.find?
          (fun e => is_t_instance T e && waiter_accepts evalPred predId e) with
      | some e₀ =>
          ⟨L, [], bump_waiter_groups W T.bitmask (-1),
            setKey F futId (.resolved e₀.eid)⟩
      | none => ⟨L, [(T.tid, [⟨predId, futId⟩])], W, F⟩) := by
  induction es with
  | nil => rfl
  | cons e rest ih =>
      have htype_rest : ∀ x ∈ rest, ∀ cls ∈ x.dispatches, cls.tid = T.tid → cls = T :=
        fun x hx => htype x (List.mem_cons_of_mem _ hx)
      have hpred_rest : ∀ x ∈ rest, ∀ p, predId = some p →
          (evalPred p x = .ok true ∨ evalPred p x = .ok false) :=
        fun x hx => hpred x (List.mem_cons_of_mem _ hx)
      have hstep := dispatch_go_waiting evalPred e T predId futId e.dispatches
        L W F hF (htype e (List.mem_cons_self e rest))
        (hpred e (List.mem_cons_self e rest))
      by_cases hcond :
          (is_t_instance T e && waiter_accepts evalPred predId e) = true
      · have hcond' :
            (fun x => is_t_instance T x && waiter_accepts evalPred predId x) e
              = true := hcond
        rw [@List.find?_cons_of_pos _
          (fun x => is_t_instance T x && waiter_accepts evalPred predId x)
          e rest hcond']
        simp only [dispatch_all, dispatch]
        rw [show ((e.dispatches.any fun cls => cls.tid == T.tid)
              && waiter_accepts evalPred predId e) = true from hcond] at hstep
        rw [hstep]
        simp only [if_true]
        exact dispatch_all_no_waiters evalPred rest _ rfl
      · have hcond' :
            ¬ ((fun x => is_t_instance T x && waiter_accepts evalPred predId x) e
              = true) := hcond
        rw [@List.find?_cons_of_neg _
          (fun x => is_t_instance T x && waiter_accepts evalPred predId x)
          e rest hcond']
        simp only [dispatch_all, dispatch]
        rw [show ((e.dispatches.any fun cls => cls.tid == T.tid)
              && waiter_accepts evalPred predId e) = false from
            (by simpa [is_t_instance] using hcond)] at hstep
        rw [hstep]
        rw [if_neg (by simp)]
        exact ih htype_rest hpred_rest

theorem wait_for_start_no_waiters (s0 : EMState) (T : EventType)
    (predId : Option Nat) (futId : Nat) (h : s0.waiters = []) :
    wait_for_start s0 T predId futId =
      ⟨s0.listeners, [(T.tid, [⟨predId, futId⟩])],
        bump_waiter_groups s0.consumers T.bitmask 1,
        setKey s0.futures futId .pending⟩ := by
  obtain ⟨ls, ws, cs, fs⟩ := s0
  simp only at h
  subst h
  simp [wait_for_start, lookupKey, increment_waiter_group_count, setKey]

/-- C3: starting from an engine with no registered waiters, `wait_for(T,
predicate, timeout)` behaves as claimed for every sequence of subsequently
dispatched events (predicates assumed total on them): if some dispatched
event is a `T`-instance accepted by the predicate, the waiter's future is
resolved with the first such event and the engine returns to exactly its
prior state apart from that future (registration removed, every consumer's
waiter group count back to its prior value); if no dispatched event matches,
the future is still pending at the deadline and the timeout cleanup removes
the registration and restores every waiter group count, leaving exactly the
prior state apart from the still-unresolved future. -/
theorem wait_for_first_match_or_timeout (evalPred : PredEnv) (s0 : EMState)
    (T : EventType) (predId : Option Nat) (futId : Nat) (es : List Event)
    (hw0 : s0.waiters = [])
    (htype : ∀ e ∈ es, ∀ cls ∈ e.dispatches, cls.tid = T.tid → cls = T)
    (hpred : ∀ e ∈ es, ∀ p, predId = some p →
      (evalPred p e = .ok true ∨ evalPred p e = .ok false)) :
    (∀ e₀, es.find?
        (fun e => is_t_instance T e && waiter_accepts evalPred predId e)
        = some e₀ →
      dispatch_all evalPred (wait_for_start s0 T predId futId) es =
        { s0 with futures := setKey s0.futures futId (.resolved e₀.eid) }) ∧
    (es.find?
        (fun e => is_t_instance T e && waiter_accepts evalPred predId e)
        = none →
      lookupKey
          (dispatch_all evalPred (wait_for_start s0 T predId futId) es).futures
          futId
        = some .pending ∧
      wait_for_on_timeout
          (dispatch_all evalPred (wait_for_start s0 T predId futId) es)
          T predId futId =
        { s0 with futures := setKey s0.futures futId .pending }) := by
  obtain ⟨ls, ws, cs, fs⟩ := s0
  simp only at hw0
  subst hw0
  rw [wait_for_start_no_waiters ⟨ls, [], cs, fs⟩ T predId futId rfl]
  have hF : lookupKey (setKey fs futId FutureState.pending) futId
      = some .pending := lookupKey_setKey_self fs futId _
  have hall := dispatch_all_waiting evalPred T predId futId es ls
    (bump_waiter_groups cs T.bitmask 1) (setKey fs futId .pending)
    hF htype hpred
  constructor
  · intro e₀ hfind
    rw [hfind] at hall
    simp only at hall
    rw [hall, waiter_count_inc_dec, setKey_setKey]
  · intro hfind
    rw [hfind] at hall
    simp only at hall
    rw [hall]
    refine ⟨hF, ?_⟩
    simp [wait_for_on_timeout, lookupKey, eraseKey,
      increment_waiter_group_count, waiter_count_inc_dec]

/-- Witness for C3: a resolution scenario (no predicate; the dispatched
event is a `T`-instance and resolves the waiter, restoring the consumer's
waiter group count) and a timeout scenario (the dispatched event is not a
`T`-instance; the timeout cleanup restores the state). -/
theorem wait_for_first_match_or_timeout_witness :
    dispatch_all (fun _ _ => Except.ok true)
        (wait_for_start
          ⟨[], [], [("message_create", ⟨"on_message_create", 6, 0, 0⟩)], []⟩
          ⟨2, 2⟩ none 0)
        [⟨5, false, [⟨2, 2⟩, ⟨1, 1⟩]⟩] =
      { (⟨[], [], [("message_create", ⟨"on_message_create", 6, 0, 0⟩)], []⟩ :
          EMState) with futures := setKey [] 0 (.resolved 5) } ∧
    (lookupKey
        (dispatch_all (fun _ _ => Except.ok true)
          (wait_for_start
            ⟨[], [], [("message_create", ⟨"on_message_create", 6, 0, 0⟩)], []⟩
            ⟨2, 2⟩ none 0)
          [⟨7, false, [⟨3, 4⟩, ⟨1, 1⟩]⟩]).futures 0
      = some .pending ∧
    wait_for_on_timeout
        (dispatch_all (fun _ _ => Except.ok true)
          (wait_for_start
            ⟨[], [], [("message_create", ⟨"on_message_create", 6, 0, 0⟩)], []⟩
            ⟨2, 2⟩ none 0)
          [⟨7, false, [⟨3, 4⟩, ⟨1, 1⟩]⟩])
        ⟨2, 2⟩ none 0 =
      { (⟨[], [], [("message_create", ⟨"on_message_create", 6, 0, 0⟩)], []⟩ :
          EMState) with futures := setKey [] 0 .pending }) :=
  ⟨(wait_for_first_match_or_timeout (fun _ _ => Except.ok true)
      ⟨[], [], [("message_create", ⟨"on_message_create", 6, 0, 0⟩)], []⟩
      ⟨2, 2⟩ none 0 [⟨5, false, [⟨2, 2⟩, ⟨1, 1⟩]⟩] rfl (by decide)
      (fun _ _ p hp => Option.noConfusion hp)).1
    ⟨5, false, [⟨2, 2⟩, ⟨1, 1⟩]⟩ (by decide),
   (wait_for_first_match_or_timeout (fun _ _ => Except.ok true)
      ⟨[], [], [("message_create", ⟨"on_message_create", 6, 0, 0⟩)], []⟩
      ⟨2, 2⟩ none 0 [⟨7, false, [⟨3, 4⟩, ⟨1, 1⟩]⟩] rfl (by decide)
      (fun _ _ p hp => Option.noConfusion hp)).2 (by decide)⟩

/-- Witness for C9 on a concrete engine with one consumer interested in the
subscribed type. -/
theorem subscribe_unsubscribe_roundtrip_witness :
    unsubscribe
        (subscribe ⟨[(5, [7])], [], [("message_create", ⟨"on_message_create", 6, 1, 0⟩)], []⟩
          ⟨2, 2⟩ 9)
        ⟨2, 2⟩ 9
      = some ⟨[(5, [7])], [], [("message_create", ⟨"on_message_create", 6, 1, 0⟩)], []⟩ :=
  subscribe_unsubscribe_roundtrip _ ⟨2, 2⟩ 9 (by decide)

end Velum
